import Mathlib

/-!
Verification of the magnetic runtime against its specification.

Shallow embedding of the relevant parts of the source:
* `magnetic-transport/src/lib.rs` — the client-side snapshot transport
  (FNV-1a hashing, prediction cache, store/reduce).
* `magnetic-v8-server/src/data.rs` — page-scoped data sources, the merged
  data view, SSE stream buffering and the delta callback.
* `magnetic-v8-server/src/platform.rs` — session-id selection and the
  delta broadcast.
* `magnetic-control-plane/src/server.rs` — deploy tier checks and
  registration.

Machine integers are modelled as `Nat` with explicit `% 2^32` where the
Rust code relies on `u32` wrapping. Byte buffers are `List Nat`.
-/

namespace Magnetic

/-! ## Snapshot transport (magnetic-transport/src/lib.rs) -/

/-- `INPUT_CAP`: size of the shared input staging buffer (16 KB). -/
def INPUT_CAP : Nat := 16384

/-- `SLOT_CAP`: capacity of one snapshot slot (16 KB). -/
def SLOT_CAP : Nat := 16384

/-- `CACHE_N`: number of prediction cache entries. -/
def CACHE_N : Nat := 4

/-- One step of 32-bit FNV-1a: xor the byte in, multiply by the prime,
keep 32 bits (`wrapping_mul`). -/
def fnvStep (h b : Nat) : Nat := ((h ^^^ b) * 0x01000193) % 2 ^ 32

/-- 32-bit FNV-1a over a byte sequence (`fn fnv` in lib.rs). -/
def fnv (data : List Nat) : Nat := data.foldl fnvStep 0x811c9dc5

/-- A snapshot slot: the stored bytes plus the cached hash field.
In the Rust struct the backing array is fixed-size with a separate `len`;
here `data` holds exactly the `len` written bytes. -/
structure Slot where
  data : List Nat
  hash : Nat
deriving DecidableEq

/-- `Slot::new()`: empty, with `hash = 0` (note: not `fnv []`). -/
def Slot.empty : Slot := ⟨[], 0⟩

/-- `Slot::write`: copy at most `SLOT_CAP` bytes and rehash the stored
prefix. -/
def Slot.write (_s : Slot) (src : List Nat) : Slot :=
  let d := src.take SLOT_CAP
  ⟨d, fnv d⟩

/-- A prediction cache entry. -/
structure CacheEntry where
  key : Nat
  slot : Slot
  valid : Bool
deriving DecidableEq

/-- `CacheEntry::new()`. -/
def CacheEntry.blank : CacheEntry := ⟨0, Slot.empty, false⟩

/-- `make_key`: `state_hash ^ action_hash.wrapping_mul(0x9e3779b9)`. -/
def makeKey (stateHash actionHash : Nat) : Nat :=
  stateHash ^^^ (actionHash * 0x9e3779b9) % 2 ^ 32

/-- The four-entry prediction cache (`cache: [CacheEntry; CACHE_N]`). -/
structure Cache where
  e0 : CacheEntry
  e1 : CacheEntry
  e2 : CacheEntry
  e3 : CacheEntry
deriving DecidableEq

/-- Read the cache entry at index `i % 4` (indices used by the code are
already `< CACHE_N`). -/
def Cache.get (c : Cache) (i : Nat) : CacheEntry :=
  match i % 4 with
  | 0 => c.e0
  | 1 => c.e1
  | 2 => c.e2
  | _ => c.e3

/-- Replace the cache entry at index `i % 4`. -/
def Cache.set (c : Cache) (i : Nat) (e : CacheEntry) : Cache :=
  match i % 4 with
  | 0 => { c with e0 := e }
  | 1 => { c with e1 := e }
  | 2 => { c with e2 := e }
  | _ => { c with e3 := e }

/-- The linear scan of `reduce` (loop `i = 0..CACHE_N`): first valid
entry whose key matches. -/
def cacheLookup (c : Cache) (key : Nat) : Option CacheEntry :=
  if c.e0.valid && c.e0.key == key then some c.e0
  else if c.e1.valid && c.e1.key == key then some c.e1
  else if c.e2.valid && c.e2.key == key then some c.e2
  else if c.e3.valid && c.e3.key == key then some c.e3
  else none

/-- The transport state (`struct Transport`). The input staging buffer is
elided: operations take their input bytes directly. `result_ptr` is
elided; the bytes it points at are returned by `reduce` directly, and
`result_len` is kept as a field (`snapshot_len()`). The delta ring is
not needed for the claims below. -/
structure Transport where
  current : Slot
  cache : Cache
  cacheCursor : Nat
  resultLen : Nat
  predictedHash : Nat
  pendingActionHash : Nat
  pendingPreHash : Nat
  hasPending : Bool
deriving DecidableEq

/-- `Transport::new()`: the state after boot. -/
def Transport.boot : Transport :=
  ⟨Slot.empty, ⟨CacheEntry.blank, CacheEntry.blank, CacheEntry.blank, CacheEntry.blank⟩,
   0, 0, 0, 0, 0, false⟩

/-- `reduce(action_len)`: record the pending `(state_hash, action_hash)`
pair, search the cache, return the predicted bytes (or the current
snapshot bytes on a miss, with `result_len = 0`). -/
def Transport.reduce (t : Transport) (action : List Nat) : List Nat × Transport :=
  let actionHash := fnv action
  let key := makeKey t.current.hash actionHash
  let t1 : Transport :=
    { t with pendingActionHash := actionHash, pendingPreHash := t.current.hash,
             hasPending := true }
  match cacheLookup t1.cache key with
  | some e => (e.slot.data, { t1 with resultLen := e.slot.data.length, predictedHash := e.slot.hash })
  | none => (t1.current.data, { t1 with resultLen := 0, predictedHash := 0 })

/-- The cache-learning step at the top of `store`: if a prediction is
pending, insert `(key, snapshot)` at the round-robin cursor (only when
the snapshot fits a slot) and clear the pending flag. The cursor uses
`usize::wrapping_add` (`usize` is 32-bit on wasm32). -/
def Transport.learn (t : Transport) (snap : List Nat) : Transport :=
  if t.hasPending then
    let t' : Transport :=
      if snap.length ≤ SLOT_CAP then
        { t with
            cache := t.cache.set (t.cacheCursor % CACHE_N)
              ⟨makeKey t.pendingPreHash t.pendingActionHash, Slot.empty.write snap, true⟩,
            cacheCursor := (t.cacheCursor + 1) % 2 ^ 32 }
      else t
    { t' with hasPending := false }
  else t

/-- `store(snap_len)`: guard the length, learn a cache entry if pending,
then return 0 on a prediction match or a duplicate of the current
snapshot, else update the current snapshot and return 1.
`current.is_empty()` is `len == 0`, i.e. `data = []` here. -/
def Transport.store (t : Transport) (snap : List Nat) : Nat × Transport :=
  if snap.length = 0 ∨ INPUT_CAP < snap.length then (0, t)
  else if (t.learn snap).predictedHash ≠ 0 ∧ fnv snap = (t.learn snap).predictedHash then
    (0, { t.learn snap with
            current := (t.learn snap).current.write snap, predictedHash := 0, resultLen := 0 })
  else if (t.learn snap).current.data ≠ [] ∧ fnv snap = (t.learn snap).current.hash then
    (0, { t.learn snap with predictedHash := 0 })
  else
    (1, { t.learn snap with
            current := (t.learn snap).current.write snap, predictedHash := 0,
            resultLen := ((t.learn snap).current.write snap).data.length })

/-! ### Helper lemmas about `learn` -/

theorem Transport.learn_current (t : Transport) (snap : List Nat) :
    (t.learn snap).current = t.current := by
  unfold Transport.learn
  split_ifs <;> rfl

theorem Transport.learn_predictedHash (t : Transport) (snap : List Nat) :
    (t.learn snap).predictedHash = t.predictedHash := by
  unfold Transport.learn
  split_ifs <;> rfl

theorem Transport.learn_resultLen (t : Transport) (snap : List Nat) :
    (t.learn snap).resultLen = t.resultLen := by
  unfold Transport.learn
  split_ifs <;> rfl

/-- If a prediction is pending and the snapshot fits, `learn` inserts the
learned entry at the round-robin cursor, advances it, and clears the flag. -/
theorem Transport.learn_of_pending (t : Transport) (snap : List Nat)
    (hp : t.hasPending = true) (hs : snap.length ≤ SLOT_CAP) :
    t.learn snap =
      { t with
          cache := t.cache.set (t.cacheCursor % CACHE_N)
            ⟨makeKey t.pendingPreHash t.pendingActionHash, Slot.empty.write snap, true⟩,
          cacheCursor := (t.cacheCursor + 1) % 2 ^ 32,
          hasPending := false } := by
  unfold Transport.learn
  rw [if_pos hp, if_pos hs]

/-- `Slot.write` keeps the whole input when it fits, and the stored hash
is the hash of the input. -/
theorem Slot.write_of_le (s : Slot) (src : List Nat) (h : src.length ≤ SLOT_CAP) :
    s.write src = ⟨src, fnv src⟩ := by
  unfold Slot.write
  rw [List.take_of_length_le h]

/-! ### C1 -/

/-- Four bytes whose 32-bit FNV-1a hash is zero. -/
def fnvZeroBytes : List Nat := [204, 36, 49, 196]

theorem fnv_fnvZeroBytes : fnv fnvZeroBytes = 0 := by decide

/-- C1, counterexample: in the boot state the current slot is empty and
`current.hash = 0`.  Storing a snapshot whose FNV-1a hash is `0` (so
`fnv s` equals the current hash at call time) nevertheless returns `1`,
because the duplicate check is skipped while the current slot is empty.
This refutes the claim that `store(s)` returns 0 whenever `fnv(s)` equals
the current snapshot's hash at call time, including the initial state. -/
theorem c1_counterexample :
    fnv fnvZeroBytes = Transport.boot.current.hash ∧
    0 < fnvZeroBytes.length ∧ fnvZeroBytes.length ≤ INPUT_CAP ∧
    (Transport.boot.store fnvZeroBytes).1 = 1 := by decide

/-- C1 (amended): for `0 < len s ≤ INPUT_CAP`, `store s` returns 0
whenever the current slot is non-empty and `fnv s` equals the current
snapshot's hash at call time; and whenever `store s` returns 1 the
current snapshot's hash afterwards equals `fnv s`. -/
theorem c1_store_amended (t : Transport) (s : List Nat)
    (h1 : 0 < s.length) (h2 : s.length ≤ INPUT_CAP) :
    (t.current.data ≠ [] → fnv s = t.current.hash → (t.store s).1 = 0) ∧
    ((t.store s).1 = 1 → (t.store s).2.current.hash = fnv s) := by
  have hguard : ¬(s.length = 0 ∨ INPUT_CAP < s.length) := by omega
  have hcap : s.length ≤ SLOT_CAP := h2
  constructor
  · intro hne hh
    unfold Transport.store
    rw [if_neg hguard]
    simp only [Transport.learn_current, Transport.learn_predictedHash]
    split_ifs with hpred hdup
    · rfl
    · rfl
    · exact absurd ⟨hne, hh⟩ hdup
  · intro hret
    unfold Transport.store at hret ⊢
    rw [if_neg hguard] at hret ⊢
    simp only [Transport.learn_current, Transport.learn_predictedHash] at hret ⊢
    split_ifs at hret ⊢ with hpred hdup
    all_goals simp_all [Slot.write_of_le _ _ hcap]

theorem c1_store_amended_witness :
    (((Transport.boot.store [1]).2).current.data ≠ [] →
      fnv [1] = ((Transport.boot.store [1]).2).current.hash →
      (((Transport.boot.store [1]).2).store [1]).1 = 0) ∧
    ((((Transport.boot.store [1]).2).store [1]).1 = 1 →
      ((((Transport.boot.store [1]).2).store [1]).2).current.hash = fnv [1]) :=
  c1_store_amended ((Transport.boot.store [1]).2) [1] (by decide) (by decide)

/-! ### C3 -/

/-- All snapshot slots (the current slot and the four cache slots) hold
at most `SLOT_CAP` bytes. -/
def Transport.slotsOk (t : Transport) : Prop :=
  t.current.data.length ≤ SLOT_CAP ∧
  t.cache.e0.slot.data.length ≤ SLOT_CAP ∧
  t.cache.e1.slot.data.length ≤ SLOT_CAP ∧
  t.cache.e2.slot.data.length ≤ SLOT_CAP ∧
  t.cache.e3.slot.data.length ≤ SLOT_CAP

theorem Slot.write_length_le (s : Slot) (src : List Nat) :
    (s.write src).data.length ≤ SLOT_CAP := by
  simp only [Slot.write, List.length_take]
  omega

theorem Transport.learn_slotsOk (t : Transport) (snap : List Nat)
    (h : t.slotsOk) : (t.learn snap).slotsOk := by
  obtain ⟨hc, h0, h1, h2, h3⟩ := h
  unfold Transport.learn
  split_ifs with hp hs
  · have h4 : t.cacheCursor % CACHE_N % 4 = 0 ∨ t.cacheCursor % CACHE_N % 4 = 1 ∨
        t.cacheCursor % CACHE_N % 4 = 2 ∨ t.cacheCursor % CACHE_N % 4 = 3 := by omega
    rcases h4 with h4 | h4 | h4 | h4 <;>
      simp_all [Transport.slotsOk, Cache.set, h4, Slot.write_length_le]
  · exact ⟨hc, h0, h1, h2, h3⟩
  · exact ⟨hc, h0, h1, h2, h3⟩

/-- C3 (amended): a snapshot longer than the slot capacity is rejected
outright by `store` — it returns 0 and leaves the transport unchanged
(the input-buffer guard fires, since `INPUT_CAP = SLOT_CAP`); and no
operation writes a snapshot slot beyond its fixed capacity: both `store`
and `reduce` preserve the slot bounds. -/
theorem c3_slot_capacity_amended :
    (∀ (t : Transport) (s : List Nat), SLOT_CAP < s.length → t.store s = (0, t)) ∧
    (∀ (t : Transport) (s : List Nat), t.slotsOk →
      ((t.store s).2.slotsOk ∧ (t.reduce s).2.slotsOk)) := by
  constructor
  · intro t s hlen
    unfold Transport.store
    rw [if_pos (Or.inr (show INPUT_CAP < s.length from hlen))]
  · intro t s hok
    constructor
    · have hlearn := Transport.learn_slotsOk t s hok
      obtain ⟨lc, l0, l1, l2, l3⟩ := hlearn
      obtain ⟨hc, h0, h1, h2, h3⟩ := hok
      unfold Transport.store
      split_ifs with hguard hpred hdup
      · exact ⟨hc, h0, h1, h2, h3⟩
      · exact ⟨Slot.write_length_le (t.learn s).current s, l0, l1, l2, l3⟩
      · exact ⟨lc, l0, l1, l2, l3⟩
      · exact ⟨Slot.write_length_le (t.learn s).current s, l0, l1, l2, l3⟩
    · unfold Transport.reduce
      obtain ⟨hc, h0, h1, h2, h3⟩ := hok
      cases hmatch : cacheLookup t.cache (makeKey t.current.hash (fnv s)) <;>
        simp_all [Transport.slotsOk]

theorem c3_slot_capacity_amended_witness :
    Transport.boot.store (List.replicate 16385 1) = (0, Transport.boot) ∧
    ((Transport.boot.store [1]).2.slotsOk ∧ (Transport.boot.reduce [1]).2.slotsOk) :=
  ⟨c3_slot_capacity_amended.1 Transport.boot (List.replicate 16385 1)
      (by rw [List.length_replicate]; norm_num [SLOT_CAP]),
   c3_slot_capacity_amended.2 Transport.boot [1]
      (by unfold Transport.slotsOk; decide)⟩

/-- C3, counterexample: a 16385-byte snapshot is one byte larger than a
slot. The claim says `store` still updates the current snapshot with the
truncated prefix; in fact the length guard (`snap_len > INPUT_CAP`, and
`INPUT_CAP = SLOT_CAP`) rejects it: `store` returns 0 and the current
slot stays empty. -/
theorem c3_counterexample :
    SLOT_CAP < (List.replicate 16385 (1 : Nat)).length ∧
    (Transport.boot.store (List.replicate 16385 1)).1 = 0 ∧
    (Transport.boot.store (List.replicate 16385 1)).2.current.data = [] := by
  have hlen : (List.replicate 16385 (1 : Nat)).length = 16385 :=
    List.length_replicate 16385 1
  have hguard : (List.replicate 16385 (1 : Nat)).length = 0 ∨
      INPUT_CAP < (List.replicate 16385 (1 : Nat)).length := by
    right
    rw [hlen]
    norm_num [INPUT_CAP]
  refine ⟨by rw [hlen]; norm_num [SLOT_CAP], ?_, ?_⟩
  · unfold Transport.store
    rw [if_pos hguard]
  · unfold Transport.store
    rw [if_pos hguard]
    rfl

/-! ### C2 -/

theorem cacheLookup_eq_none (c : Cache) (k : Nat) :
    cacheLookup c k = none ↔
      ((c.e0.valid && c.e0.key == k) = false ∧ (c.e1.valid && c.e1.key == k) = false ∧
       (c.e2.valid && c.e2.key == k) = false ∧ (c.e3.valid && c.e3.key == k) = false) := by
  unfold cacheLookup
  split_ifs with h0 h1 h2 h3 <;> simp_all

/-- Inserting an entry for key `k` into a cache that has no valid entry
for `k` makes the linear scan return exactly that entry, whichever slot
the round-robin cursor picked. -/
theorem cacheLookup_set_hit (c : Cache) (k : Nat) (s : Slot) (i : Nat)
    (h : cacheLookup c k = none) :
    cacheLookup (c.set i ⟨k, s, true⟩) k = some ⟨k, s, true⟩ := by
  obtain ⟨h0, h1, h2, h3⟩ := (cacheLookup_eq_none c k).1 h
  have h4 : i % 4 = 0 ∨ i % 4 = 1 ∨ i % 4 = 2 ∨ i % 4 = 3 := by omega
  rcases h4 with h4 | h4 | h4 | h4 <;>
    simp [Cache.set, h4, cacheLookup, h0, h1, h2, h3]

/-- `reduce` on a cache miss: pending pair recorded, `result_len = 0`,
the current snapshot bytes are returned. -/
theorem Transport.reduce_miss (t : Transport) (a : List Nat)
    (h : cacheLookup t.cache (makeKey t.current.hash (fnv a)) = none) :
    t.reduce a = (t.current.data,
      { t with pendingActionHash := fnv a, pendingPreHash := t.current.hash,
               hasPending := true, resultLen := 0, predictedHash := 0 }) := by
  unfold Transport.reduce
  simp only [h]

/-- `reduce` on a cache hit: pending pair recorded, the predicted bytes
are returned with their length and hash. -/
theorem Transport.reduce_hit (t : Transport) (a : List Nat) (e : CacheEntry)
    (h : cacheLookup t.cache (makeKey t.current.hash (fnv a)) = some e) :
    t.reduce a = (e.slot.data,
      { t with pendingActionHash := fnv a, pendingPreHash := t.current.hash,
               hasPending := true, resultLen := e.slot.data.length,
               predictedHash := e.slot.hash }) := by
  unfold Transport.reduce
  simp only [h]

/-- After a non-rejected `store`, the cache and the pending flag are the
ones produced by the learning step, whatever branch returned. -/
theorem Transport.store_cache (t : Transport) (snap : List Nat)
    (hg : ¬(snap.length = 0 ∨ INPUT_CAP < snap.length)) :
    (t.store snap).2.cache = (t.learn snap).cache ∧
    (t.store snap).2.hasPending = (t.learn snap).hasPending := by
  unfold Transport.store
  rw [if_neg hg]
  split_ifs <;> exact ⟨rfl, rfl⟩

/-- A non-rejected `store` whose hash matches a nonzero predicted hash
returns 0. -/
theorem Transport.store_pred_match (t : Transport) (snap : List Nat)
    (hg : ¬(snap.length = 0 ∨ INPUT_CAP < snap.length))
    (hp : t.predictedHash ≠ 0) (hm : fnv snap = t.predictedHash) :
    (t.store snap).1 = 0 := by
  unfold Transport.store
  rw [if_neg hg,
      if_pos (show (t.learn snap).predictedHash ≠ 0 ∧ fnv snap = (t.learn snap).predictedHash by
        rw [Transport.learn_predictedHash]; exact ⟨hp, hm⟩)]

/- Concrete operation chain refuting C2 as stated.  Starting from boot:
store x1=[1] (state hash h), reduce a=[2] (miss), store r2=[3]
(caches (key(h,a), [3])), store x1 (hash h again).  Now the claim's
scenario: reduce a from hash h, store r=[4,5] — this caches a second
entry (key(h,a), [4,5]).  store x1 brings the hash back to h. -/

def c2s0 : Transport := (Transport.boot.store [1]).2

def c2s3 : Transport := (((c2s0.reduce [2]).2.store [3]).2.store [1]).2

def c2s5 : Transport := ((c2s3.reduce [2]).2.store [4, 5]).2

def c2s6 : Transport := (c2s5.store [1]).2

/-- C2, counterexample: after `reduce([2])` from state hash `h = fnv [1]`
followed by `store([4,5])`, a second `reduce([2])` performed when the
current state hash is again `h` (and the cache is unchanged) returns the
bytes `[3]` of a stale cache entry that was learned earlier for the same
`(state, action)` key — not the snapshot `[4,5]` of the latest store —
and `snapshot_len()` is 1, not 2. -/
theorem c2_counterexample :
    c2s3.current.hash = c2s0.current.hash ∧
    c2s6.current.hash = c2s0.current.hash ∧
    c2s6.cache = c2s5.cache ∧
    (c2s6.reduce [2]).1 = [3] ∧
    ¬((c2s6.reduce [2]).1 = [4, 5]) ∧
    ¬((c2s6.reduce [2]).2.resultLen = 2) := by decide

/-- C2 (amended): provided the cache holds no other valid entry for the
derived key and `fnv r ≠ 0`: a `reduce(a)` from state hash `h` records
the pending `(h, fnv a)` pair (and misses), the following `store(r)`
inserts `(key, r, fnv r)` at the round-robin cursor and clears pending,
and a second `reduce(a)` performed in any state with that cache whose
current hash is again `h` returns the cached snapshot bytes of `r` with
`snapshot_len()` equal to `r`'s byte length; a subsequent store of the
identical snapshot returns 0. -/
theorem c2_prediction_amended (t0 : Transport) (a r : List Nat)
    (hr1 : 0 < r.length) (hr2 : r.length ≤ SLOT_CAP) (hfr : fnv r ≠ 0)
    (hclean : cacheLookup t0.cache (makeKey t0.current.hash (fnv a)) = none) :
    ((t0.reduce a).2.hasPending = true ∧
     (t0.reduce a).2.pendingPreHash = t0.current.hash ∧
     (t0.reduce a).2.pendingActionHash = fnv a ∧
     (t0.reduce a).2.resultLen = 0) ∧
    (((t0.reduce a).2.store r).2.cache =
        t0.cache.set (t0.cacheCursor % CACHE_N)
          ⟨makeKey t0.current.hash (fnv a), ⟨r, fnv r⟩, true⟩ ∧
     ((t0.reduce a).2.store r).2.hasPending = false) ∧
    (∀ t' : Transport, t'.cache = ((t0.reduce a).2.store r).2.cache →
      t'.current.hash = t0.current.hash →
      (t'.reduce a).1 = r ∧ (t'.reduce a).2.resultLen = r.length ∧
      ((t'.reduce a).2.store r).1 = 0) := by
  have hr2' : r.length ≤ INPUT_CAP := hr2
  have hg : ¬(r.length = 0 ∨ INPUT_CAP < r.length) := by omega
  have hmiss := Transport.reduce_miss t0 a hclean
  have ht1 : (t0.reduce a).2 =
      { t0 with pendingActionHash := fnv a, pendingPreHash := t0.current.hash,
                hasPending := true, resultLen := 0, predictedHash := 0 } := by
    rw [hmiss]
  have hsc := Transport.store_cache (t0.reduce a).2 r hg
  have hlearn : ((t0.reduce a).2.learn r) =
      { (t0.reduce a).2 with
          cache := (t0.reduce a).2.cache.set ((t0.reduce a).2.cacheCursor % CACHE_N)
            ⟨makeKey (t0.reduce a).2.pendingPreHash (t0.reduce a).2.pendingActionHash,
             Slot.empty.write r, true⟩,
          cacheCursor := ((t0.reduce a).2.cacheCursor + 1) % 2 ^ 32,
          hasPending := false } :=
    Transport.learn_of_pending _ r (by rw [ht1]) hr2
  have hcache : ((t0.reduce a).2.store r).2.cache =
      t0.cache.set (t0.cacheCursor % CACHE_N)
        ⟨makeKey t0.current.hash (fnv a), ⟨r, fnv r⟩, true⟩ := by
    rw [hsc.1, hlearn, ht1, Slot.write_of_le _ _ hr2]
  refine ⟨by rw [ht1]; exact ⟨rfl, rfl, rfl, rfl⟩, ⟨hcache, ?_⟩, ?_⟩
  · rw [hsc.2, hlearn]
  · intro t' hc' hh'
    have hlook : cacheLookup t'.cache (makeKey t'.current.hash (fnv a)) =
        some ⟨makeKey t0.current.hash (fnv a), ⟨r, fnv r⟩, true⟩ := by
      rw [hh', hc', hcache]
      exact cacheLookup_set_hit t0.cache _ _ _ hclean
    have hred := Transport.reduce_hit t' a _ hlook
    refine ⟨by rw [hred], by rw [hred], ?_⟩
    have hp : ((t'.reduce a).2).predictedHash = fnv r := by rw [hred]
    exact Transport.store_pred_match _ r hg (by rw [hp]; exact hfr) (by rw [hp])

theorem c2_prediction_amended_witness :
    (Transport.boot.reduce [2]).2.hasPending = true ∧
    (((((Transport.boot.reduce [2]).2.store [4, 5]).2).store fnvZeroBytes).2.reduce [2]).1
      = [4, 5] ∧
    ((((((Transport.boot.reduce [2]).2.store [4, 5]).2).store fnvZeroBytes).2.reduce
        [2]).2.store [4, 5]).1 = 0 := by
  have h := c2_prediction_amended Transport.boot [2] [4, 5]
    (by decide) (by decide) (by decide) (by decide)
  have h3 := h.2.2 ((((Transport.boot.reduce [2]).2.store [4, 5]).2).store fnvZeroBytes).2
    (by decide) (by decide)
  exact ⟨h.1.1, h3.1, h3.2.2⟩

/-! ## Data layer (magnetic-v8-server/src/data.rs)

JSON values (`serde_json::Value`) are modelled by an inductive tree;
numbers are `Int` (no claim depends on float behaviour). Request paths
and page scopes are byte strings handled bytewise by the Rust code
(`starts_with`, `as_bytes().get(i)`); they are modelled as `List Char`.
The per-app value map (`values: RwLock<HashMap<String, Value>>`) is an
association list with insert-at-front/lookup-first map semantics. -/

inductive JsonVal where
  | null
  | bool (b : Bool)
  | num (n : Int)
  | str (s : String)
  | arr (xs : List JsonVal)
  | obj (fields : List (String × JsonVal))

/-- `DataSourceConfig` (data.rs). -/
structure DataSourceConfig where
  key : String
  url : String
  sourceType : String
  refresh : Option String
  page : List Char
  auth : Bool
  timeout : Option String
  retries : Nat
  buffer : Nat
  target : Option String
deriving DecidableEq

/-- The value map: `HashMap::insert` replaces, `get` finds; modelled as
cons + first-match lookup (`List.lookup`). -/
abbrev Values : Type := List (String × JsonVal)

def setValue (m : Values) (k : String) (v : JsonVal) : Values := (k, v) :: m

def removeValue (m : Values) (k : String) : Values :=
  List.filter (fun p => !(p.1 == k)) m

/-! Rust `&str` helpers, modelled bytewise over `List Char` (the strings
the code handles here are ASCII). -/

/-- `str::trim`. -/
def trimChars (l : List Char) : List Char :=
  ((l.dropWhile Char.isWhitespace).reverse.dropWhile Char.isWhitespace).reverse

/-- `str::trim_end_matches`: strip the suffix repeatedly. -/
def trimEndAll (l p : List Char) : List Char := go l.length l
where
  go : Nat → List Char → List Char
  | 0, l => l
  | n + 1, l =>
    if p ≠ [] ∧ p.isSuffixOf l then go n (l.take (l.length - p.length)) else l

/-- `str::parse::<u64>`: optional `+` sign, then one or more digits
(overflow at `u64::MAX` is not modelled). -/
def rustParseNat (l : List Char) : Option Nat :=
  let l := match l with
    | '+' :: rest => rest
    | _ => l
  if l ≠ [] ∧ l.all Char.isDigit then
    some (l.foldl (fun n c => n * 10 + (c.toNat - 48)) 0)
  else none

/-- `parse_duration` (data.rs): "5s", "500ms", "1m"; malformed numbers
parse as 0. Result in milliseconds. -/
def parseDuration (s : String) : Nat :=
  let l := trimChars s.data
  if ['m', 's'].isSuffixOf l then (rustParseNat (trimEndAll l ['m', 's'])).getD 0
  else if ['s'].isSuffixOf l then (rustParseNat (trimEndAll l ['s'])).getD 0 * 1000
  else if ['m'].isSuffixOf l then (rustParseNat (trimEndAll l ['m'])).getD 0 * 60000
  else 0

/-- The page-scope filter of `DataContext::sources_for_page`: wildcard,
exact match, or prefix match where the scope ends with `/` or the next
path byte is `/`. -/
def pageMatches (d : DataSourceConfig) (path : List Char) : Bool :=
  if d.page == ['*'] then true
  else if path == d.page then true
  else if d.page.isPrefixOf path &&
      (d.page.getLast? == some '/' || path.get? d.page.length == some '/') then true
  else false

/-- `DataContext::sources_for_page`. -/
def sources_for_page (cfg : List DataSourceConfig) (path : List Char) :
    List DataSourceConfig :=
  List.filter (fun d => pageMatches d path) cfg

/-- `DataContext::data_json_for_page`: merge the current values of the
relevant sources into one object (the serialization to a JSON string is
elided; the returned association list is the built `serde_json::Map`). -/
def data_json_for_page (cfg : List DataSourceConfig) (values : Values)
    (path : List Char) : Values :=
  List.foldl
    (fun obj src =>
      match List.lookup src.key values with
      | some v => (src.key, v) :: obj
      | none => obj)
    [] (sources_for_page cfg path)

/-- Store a fetch result: parsed JSON on success, `{__error: msg}` on
terminal failure (`fetch_page_data_streaming` / `fetch_page_data`). -/
def applyFetch (values : Values) (key : String) : Except String JsonVal → Values
  | .ok v => setValue values key v
  | .error e => setValue values key (.obj [("__error", .str e)])

/-- `fetch_page_data_streaming`: non-SSE relevant sources with a nonzero
timeout go to worker threads; the rest are fetched synchronously. Each
worker is awaited up to its timeout; on expiry the value is set to null
and the source becomes pending, and `__loading` is set to the pending
keys (or removed when nothing is pending). The outcome of each fetch
and which workers time out are external events, passed in as `result`
and `timedOut`. Returns the updated values and the pending sources. -/
def fetch_page_data_streaming (cfg : List DataSourceConfig) (values : Values)
    (path : List Char) (result : String → Except String JsonVal)
    (timedOut : String → Bool) : Values × List DataSourceConfig :=
  let firstPass := List.foldl
    (fun (acc : Values × List DataSourceConfig) src =>
      if src.sourceType == "sse" then acc
      else
        match src.timeout with
        | some ts =>
          if parseDuration ts ≠ 0 then (acc.1, acc.2 ++ [src])
          else (applyFetch acc.1 src.key (result src.key), acc.2)
        | none => (applyFetch acc.1 src.key (result src.key), acc.2))
    (values, []) (sources_for_page cfg path)
  let secondPass := List.foldl
    (fun (acc : Values × List DataSourceConfig) src =>
      if timedOut src.key then (setValue acc.1 src.key .null, acc.2 ++ [src])
      else (applyFetch acc.1 src.key (result src.key), acc.2))
    (firstPass.1, []) firstPass.2
  if secondPass.2.isEmpty then (removeValue secondPass.1 "__loading", secondPass.2)
  else
    (setValue secondPass.1 "__loading" (.arr (secondPass.2.map (fun s => .str s.key))),
     secondPass.2)

/-! ### C5 -/

/-- The relevance predicate exactly as the spec words it: scope `*`,
scope equal to the path, or scope a proper prefix of the path whose
immediately following character is the segment separator. -/
def specRelevant (d : DataSourceConfig) (path : List Char) : Prop :=
  d.page = ['*'] ∨ d.page = path ∨
    (d.page <+: path ∧ d.page ≠ path ∧ path.get? d.page.length = some '/')

def c5src : DataSourceConfig :=
  { key := "s", url := "http://upstream/s", sourceType := "fetch", refresh := none,
    page := ['/', 'a', '/'], auth := false, timeout := none, retries := 0,
    buffer := 0, target := none }

/-- C5, counterexample: a source scoped to `/a/` is relevant to the path
`/a/b` in the code (the scope ends with `/`, so any extension matches),
but not under the spec's predicate (the character right after the scope
is `b`, not `/`). -/
theorem c5_counterexample :
    c5src ∈ sources_for_page [c5src] ['/', 'a', '/', 'b'] ∧
    ¬ specRelevant c5src ['/', 'a', '/', 'b'] := by
  constructor
  · decide
  · unfold specRelevant
    decide

theorem pageMatches_iff (d : DataSourceConfig) (path : List Char) :
    pageMatches d path = true ↔
      (d.page = ['*'] ∨ d.page = path ∨
        (d.page <+: path ∧
          (d.page.getLast? = some '/' ∨ path.get? d.page.length = some '/'))) := by
  unfold pageMatches
  split_ifs with h1 h2 h3
  · simp only [beq_iff_eq] at h1
    simp [h1]
  · simp only [beq_iff_eq] at h2
    simp [h2]
  · rw [Bool.and_eq_true, List.isPrefixOf_iff_prefix, Bool.or_eq_true] at h3
    constructor
    · intro _
      refine Or.inr (Or.inr ⟨h3.1, ?_⟩)
      rcases h3.2 with h | h
      · exact Or.inl (by simpa using h)
      · exact Or.inr (by simpa using h)
    · intro _
      rfl
  · simp only [beq_iff_eq] at h1 h2
    constructor
    · intro h
      simp at h
    · rintro (h | h | ⟨hp, hor⟩)
      · exact absurd h h1
      · exact absurd h.symm h2
      · refine absurd ?_ h3
        rw [Bool.and_eq_true, List.isPrefixOf_iff_prefix, Bool.or_eq_true]
        refine ⟨hp, ?_⟩
        rcases hor with h | h
        · exact Or.inl (by simpa using h)
        · exact Or.inr (by simpa using h)

/-- C5 (amended): a declared source is relevant to a path iff its scope
is `*`, or equals the path, or is a prefix of the path that either ends
with `/` or is immediately followed by `/` in the path. -/
theorem c5_relevance_amended (d : DataSourceConfig) (cfg : List DataSourceConfig)
    (path : List Char) :
    d ∈ sources_for_page cfg path ↔
      d ∈ cfg ∧ (d.page = ['*'] ∨ d.page = path ∨
        (d.page <+: path ∧
          (d.page.getLast? = some '/' ∨ path.get? d.page.length = some '/'))) := by
  rw [sources_for_page, List.mem_filter, pageMatches_iff]

/-! ### C4 -/

theorem data_json_lookup_aux (values : Values) (k : String) :
    ∀ (srcs : List DataSourceConfig) (obj : Values),
      List.lookup k
        (List.foldl
          (fun obj src =>
            match List.lookup src.key values with
            | some v => (src.key, v) :: obj
            | none => obj)
          obj srcs) =
      if srcs.any (fun s => s.key == k && (List.lookup s.key values).isSome)
      then List.lookup k values
      else List.lookup k obj := by
  intro srcs
  induction srcs with
  | nil => intro obj; simp
  | cons s rest ih =>
    intro obj
    rw [List.foldl_cons, ih, List.any_cons]
    cases hv : List.lookup s.key values with
    | none =>
      simp only [hv, Option.isSome_none, Bool.and_false, Bool.false_or]
    | some v =>
      simp only [hv, Option.isSome_some, Bool.and_true]
      by_cases hk : s.key = k
      · subst hk
        simp only [beq_self_eq_true, Bool.true_or, if_true]
        split_ifs with h
        · rfl
        · simp [List.lookup, hv]
      · have hbeq : (s.key == k) = false := by simpa using hk
        have hkk : (k == s.key) = false := beq_eq_false_iff_ne.mpr (Ne.symm hk)
        have hlk : List.lookup k ((s.key, v) :: obj) = List.lookup k obj := by
          simp [List.lookup, hkk]
        simp only [hbeq, Bool.false_or, hlk]

/-- C4 (amended): the merged data view contains exactly the relevant
sources' present values — looking up `k` yields the context value iff
some relevant source is keyed `k` and has a value, and `none` otherwise.
In particular the reserved `__loading` key, which `fetch_page_data_streaming`
stores in the context when an SSR fetch times out, is never part of the
merged view unless a declared source is itself keyed `__loading`. -/
theorem c4_data_view_amended (cfg : List DataSourceConfig) (values : Values)
    (path : List Char) (k : String) :
    List.lookup k (data_json_for_page cfg values path) =
      if (sources_for_page cfg path).any
          (fun s => s.key == k && (List.lookup s.key values).isSome)
      then List.lookup k values
      else none := by
  rw [data_json_for_page, data_json_lookup_aux]
  rfl

def c4src : DataSourceConfig :=
  { key := "slow", url := "http://upstream/slow", sourceType := "fetch", refresh := none,
    page := ['*'], auth := false, timeout := some "100ms", retries := 0,
    buffer := 0, target := none }

/-- C4, counterexample: the source `slow` (scope `*`, timeout 100ms)
times out during streaming SSR, so the context holds
`__loading = ["slow"]` and `slow = null`; yet the merged data view
handed to the isolate for `/` contains `slow` but not `__loading` —
`data_json_for_page` only merges declared source keys. -/
theorem c4_counterexample :
    List.lookup "__loading"
      (fetch_page_data_streaming [c4src] [] ['/']
        (fun _ => .ok (.num 42)) (fun _ => true)).1 = some (.arr [.str "slow"]) ∧
    List.lookup "slow"
      (data_json_for_page [c4src]
        (fetch_page_data_streaming [c4src] [] ['/']
          (fun _ => .ok (.num 42)) (fun _ => true)).1 ['/']) = some .null ∧
    List.lookup "__loading"
      (data_json_for_page [c4src]
        (fetch_page_data_streaming [c4src] [] ['/']
          (fun _ => .ok (.num 42)) (fun _ => true)).1 ['/']) = none := by
  refine ⟨rfl, rfl, rfl⟩

/-! ## SSE stream dispatch (data.rs `start_sse_threads`) and the delta
broadcast (platform.rs `on_sse_event`). -/

/-- `SseDelta` (data.rs): what the data layer hands the platform for one
stream event in delta mode. -/
structure SseDelta where
  key : String
  value : JsonVal
  bufferSize : Nat
  target : String

/-- One dispatched stream event (the body of the `line.is_empty()` branch
for a non-`lag`, non-empty frame): returns the new ring, the value
stored into the context, and the delta handed to `on_sse_event` (if
any). `hasCallback` is whether an `on_sse_event` callback was
registered; `target.getD ""` models the `unwrap()` that the `use_delta`
guard makes safe. -/
def sseDispatch (hasCallback : Bool) (src : DataSourceConfig) (ring : List JsonVal)
    (v : JsonVal) : List JsonVal × JsonVal × Option SseDelta :=
  let useDelta : Bool := hasCallback && src.target.isSome && decide (0 < src.buffer)
  if 0 < src.buffer then
    ((if src.buffer ≤ ring.length then ring.drop 1 else ring) ++ [v],
     .arr ((if src.buffer ≤ ring.length then ring.drop 1 else ring) ++ [v]),
     if useDelta then some ⟨src.key, v, src.buffer, src.target.getD ""⟩ else none)
  else
    (ring, v,
     if useDelta then some ⟨src.key, v, src.buffer, src.target.getD ""⟩ else none)

/-- Run the dispatch loop over a list of dispatched events, tracking the
ring and the last value stored into the context (`none` before the first
event). -/
def sseRun (hasCb : Bool) (src : DataSourceConfig) :
    List JsonVal → Option JsonVal → List JsonVal → List JsonVal × Option JsonVal
  | ring, stored, [] => (ring, stored)
  | ring, _stored, v :: rest =>
    sseRun hasCb src (sseDispatch hasCb src ring v).1
      (some (sseDispatch hasCb src ring v).2.1) rest

theorem sseDispatch_ring_pos (hasCb : Bool) (src : DataSourceConfig)
    (ring : List JsonVal) (v : JsonVal) (h : 0 < src.buffer) :
    (sseDispatch hasCb src ring v).1 =
      (if src.buffer ≤ ring.length then ring.drop 1 else ring) ++ [v] := by
  unfold sseDispatch
  rw [if_pos h]

theorem sseDispatch_stored_pos (hasCb : Bool) (src : DataSourceConfig)
    (ring : List JsonVal) (v : JsonVal) (h : 0 < src.buffer) :
    (sseDispatch hasCb src ring v).2.1 = .arr ((sseDispatch hasCb src ring v).1) := by
  unfold sseDispatch
  rw [if_pos h]

theorem sseDispatch_zero (hasCb : Bool) (src : DataSourceConfig)
    (ring : List JsonVal) (v : JsonVal) (h : src.buffer = 0) :
    (sseDispatch hasCb src ring v).1 = ring ∧ (sseDispatch hasCb src ring v).2.1 = v := by
  unfold sseDispatch
  rw [if_neg (by omega)]
  exact ⟨rfl, rfl⟩

theorem drop_sub_cons {α : Type} (a : α) (l : List α) (N : Nat) (h : N ≤ l.length) :
    (a :: l).drop ((a :: l).length - N) = l.drop (l.length - N) := by
  have hx : (a :: l).length - N = (l.length - N) + 1 := by
    simp only [List.length_cons]
    omega
  rw [hx, List.drop_succ_cons]

/-- The ring after a run holds exactly the last `buffer` events (seeded
with any ring of legal length). -/
theorem sseRun_ring (hasCb : Bool) (src : DataSourceConfig) (hN : 0 < src.buffer) :
    ∀ (events ring : List JsonVal) (stored : Option JsonVal),
      ring.length ≤ src.buffer →
      (sseRun hasCb src ring stored events).1 =
        (ring ++ events).drop ((ring ++ events).length - src.buffer) := by
  intro events
  induction events with
  | nil =>
    intro ring stored hr
    simp only [sseRun, List.append_nil]
    rw [Nat.sub_eq_zero_of_le hr, List.drop_zero]
  | cons v rest ih =>
    intro ring stored hr
    show (sseRun hasCb src (sseDispatch hasCb src ring v).1
      (some (sseDispatch hasCb src ring v).2.1) rest).1 = _
    rw [sseDispatch_ring_pos hasCb src ring v hN]
    by_cases hfull : src.buffer ≤ ring.length
    · have hlen : ring.length = src.buffer := le_antisymm hr hfull
      obtain ⟨hd, tl, rfl⟩ : ∃ hd tl, ring = hd :: tl := by
        cases ring with
        | nil =>
          exfalso
          rw [List.length_nil] at hlen
          omega
        | cons hd tl => exact ⟨hd, tl, rfl⟩
      rw [if_pos hfull]
      have hdrop1 : (hd :: tl).drop 1 = tl := rfl
      rw [hdrop1, ih (tl ++ [v]) _ (by simp only [List.length_append, List.length_cons, List.length_nil] at hlen ⊢; omega)]
      have hassoc : (tl ++ [v]) ++ rest = tl ++ v :: rest := by simp
      rw [hassoc]
      have hcons : (hd :: tl) ++ v :: rest = hd :: (tl ++ v :: rest) := rfl
      rw [hcons, drop_sub_cons hd (tl ++ v :: rest) src.buffer
        (by simp only [List.length_append, List.length_cons, List.length_nil] at hlen ⊢; omega)]
    · rw [if_neg hfull, ih (ring ++ [v]) _ (by simp only [List.length_append, List.length_cons, List.length_nil]; omega)]
      have hassoc : (ring ++ [v]) ++ rest = ring ++ v :: rest := by simp
      rw [hassoc]

/-- In buffer mode the value stored last is the array of the final ring. -/
theorem sseRun_stored_pos (hasCb : Bool) (src : DataSourceConfig) (hN : 0 < src.buffer) :
    ∀ (events ring : List JsonVal) (stored : Option JsonVal), events ≠ [] →
      (sseRun hasCb src ring stored events).2 =
        some (.arr (sseRun hasCb src ring stored events).1) := by
  intro events
  induction events with
  | nil => intro ring stored h; exact absurd rfl h
  | cons v rest ih =>
    intro ring stored _
    cases rest with
    | nil =>
      show (sseRun hasCb src (sseDispatch hasCb src ring v).1
        (some (sseDispatch hasCb src ring v).2.1) []).2 = _
      simp only [sseRun]
      rw [sseDispatch_stored_pos hasCb src ring v hN]
    | cons w rest' =>
      show (sseRun hasCb src (sseDispatch hasCb src ring v).1
        (some (sseDispatch hasCb src ring v).2.1) (w :: rest')).2 = _
      exact ih _ _ (by simp)

/-- In replace mode (`buffer = 0`) the stored value is the last event. -/
theorem sseRun_stored_zero (hasCb : Bool) (src : DataSourceConfig) (hN : src.buffer = 0) :
    ∀ (events ring : List JsonVal) (stored : Option JsonVal),
      (sseRun hasCb src ring stored events).2 = events.getLast?.or stored := by
  intro events
  induction events with
  | nil => intro ring stored; rfl
  | cons v rest ih =>
    intro ring stored
    show (sseRun hasCb src (sseDispatch hasCb src ring v).1
      (some (sseDispatch hasCb src ring v).2.1) rest).2 = _
    rw [ih, (sseDispatch_zero hasCb src ring v hN).2]
    cases rest with
    | nil => rfl
    | cons w ws =>
      rw [List.getLast?_cons_cons]
      cases h2 : (w :: ws).getLast? with
      | none => simp at h2
      | some u => rfl

/-- C6: for a stream source with buffer `N > 0`, after `k` dispatched
events the stored context value is the array of the last `min(k, N)`
events in arrival order (length `min(k, N)`, oldest evicted first); for
`N = 0` the stored value is exactly the most recent event. -/
theorem c6_stream_buffer (src : DataSourceConfig) (events : List JsonVal) :
    (0 < src.buffer →
      (sseRun true src [] none events).1 =
        events.drop (events.length - src.buffer) ∧
      (sseRun true src [] none events).1.length = min events.length src.buffer ∧
      (events ≠ [] →
        (sseRun true src [] none events).2 =
          some (.arr (events.drop (events.length - src.buffer))))) ∧
    (src.buffer = 0 → (sseRun true src [] none events).2 = events.getLast?) := by
  constructor
  · intro hN
    have h1 := sseRun_ring true src hN events [] none (by simp)
    simp only [List.nil_append] at h1
    refine ⟨h1, ?_, ?_⟩
    · rw [h1, List.length_drop]
      omega
    · intro hne
      rw [sseRun_stored_pos true src hN events [] none hne, h1]
  · intro hN
    rw [sseRun_stored_zero true src hN events [] none]
    cases events.getLast? <;> rfl

def c6srcBuf : DataSourceConfig :=
  { key := "events", url := "http://upstream/events", sourceType := "sse", refresh := none,
    page := ['*'], auth := false, timeout := none, retries := 0, buffer := 2,
    target := none }

def c6srcZero : DataSourceConfig :=
  { c6srcBuf with buffer := 0 }

theorem c6_stream_buffer_witness :
    (sseRun true c6srcBuf [] none [.num 1, .num 2, .num 3]).1 = [.num 2, .num 3] ∧
    (sseRun true c6srcZero [] none [.num 1, .num 2]).2 = some (.num 2) := by
  constructor
  · have h := (c6_stream_buffer c6srcBuf [.num 1, .num 2, .num 3]).1 (by decide)
    simpa using h.1
  · have h := (c6_stream_buffer c6srcZero [.num 1, .num 2]).2 rfl
    simpa using h

/-! ### C7 -/

/-- The delta message built by `on_sse_event` (platform.rs):
`{"delta":true,"k":…,"v":…,"max":…,"t":…}`. -/
def deltaMsg (d : SseDelta) : JsonVal :=
  .obj [("delta", .bool true), ("k", .str d.key), ("v", d.value),
        ("max", .num (d.bufferSize : Int)), ("t", .str d.target)]

/-- `on_sse_event` (platform.rs 188-229): collect the session ids from
`session_paths`; if none, do nothing; else write the delta message to
every client of every session. The output is the list of performed
writes `(client, message)`; no isolate (`V8Request`) is involved —
write failures (which only prune clients) are not modelled. -/
def onSseEvent (sessionPaths : List (String × List Char))
    (sseClients : List (String × List Nat)) (d : SseDelta) : List (Nat × JsonVal) :=
  let sessions := sessionPaths.map Prod.fst
  if sessions.isEmpty then []
  else
    List.foldl
      (fun acc sid =>
        match List.lookup sid sseClients with
        | some cs => acc ++ cs.map (fun c => (c, deltaMsg d))
        | none => acc)
      [] sessions

theorem onSseEvent_superset (sseClients : List (String × List Nat)) (d : SseDelta)
    (sessions : List String) :
    ∀ (acc : List (Nat × JsonVal)) (x : Nat × JsonVal), x ∈ acc →
      x ∈ List.foldl
        (fun acc sid =>
          match List.lookup sid sseClients with
          | some cs => acc ++ cs.map (fun c => (c, deltaMsg d))
          | none => acc)
        acc sessions := by
  induction sessions with
  | nil => intro acc x hx; exact hx
  | cons s rest ih =>
    intro acc x hx
    rw [List.foldl_cons]
    cases List.lookup s sseClients with
    | none => exact ih acc x hx
    | some cs => exact ih _ x (List.mem_append_left _ hx)

theorem onSseEvent_mem_aux (sseClients : List (String × List Nat)) (d : SseDelta)
    (sessions : List String) (sid : String) (cs : List Nat) (c : Nat) :
    ∀ (acc : List (Nat × JsonVal)), sid ∈ sessions →
      List.lookup sid sseClients = some cs → c ∈ cs →
      (c, deltaMsg d) ∈ List.foldl
        (fun acc sid =>
          match List.lookup sid sseClients with
          | some cs => acc ++ cs.map (fun c => (c, deltaMsg d))
          | none => acc)
        acc sessions := by
  induction sessions with
  | nil => intro acc h; exact absurd h (List.not_mem_nil sid)
  | cons s rest ih =>
    intro acc hmem hlook hc
    rw [List.foldl_cons]
    rcases List.mem_cons.mp hmem with rfl | hmem'
    · rw [hlook]
      exact onSseEvent_superset sseClients d rest _ _
        (List.mem_append_right _ (List.mem_map.mpr ⟨c, hc, rfl⟩))
    · cases List.lookup s sseClients with
      | none => exact ih acc hmem' hlook hc
      | some cs' => exact ih _ hmem' hlook hc

/-- C7: with the platform's callback registered, a delta is emitted for a
dispatched event iff the source has a target set and `buffer > 0`; the
emitted delta carries `(key, event value, buffer, target)`; the message
has exactly the shape `{delta:true, k, v, max, t}`; and the broadcast
delivers it to every subscriber of every active session — the broadcast
is pure fan-out, with no isolate call. -/
theorem c7_delta_plane (src : DataSourceConfig) (ring : List JsonVal) (v : JsonVal) :
    ((sseDispatch true src ring v).2.2.isSome =
      (src.target.isSome && decide (0 < src.buffer))) ∧
    (∀ tgt, src.target = some tgt → 0 < src.buffer →
      (sseDispatch true src ring v).2.2 = some ⟨src.key, v, src.buffer, tgt⟩) ∧
    (∀ tgt, deltaMsg ⟨src.key, v, src.buffer, tgt⟩ =
      .obj [("delta", .bool true), ("k", .str src.key), ("v", v),
            ("max", .num (src.buffer : Int)), ("t", .str tgt)]) ∧
    (∀ (d : SseDelta) (sessionPaths : List (String × List Char))
        (sseClients : List (String × List Nat)) (sid : String) (cs : List Nat) (c : Nat),
      sid ∈ sessionPaths.map Prod.fst → List.lookup sid sseClients = some cs →
      c ∈ cs → (c, deltaMsg d) ∈ onSseEvent sessionPaths sseClients d) := by
  refine ⟨?_, ?_, ?_, ?_⟩
  · rcases ht : src.target with _ | tgt <;> by_cases hb : 0 < src.buffer <;>
      simp [sseDispatch, ht, hb]
  · intro tgt ht hbuf
    simp [sseDispatch, ht, hbuf]
  · intro tgt
    rfl
  · intro d sessionPaths sseClients sid cs c hmem hlook hc
    unfold onSseEvent
    rw [if_neg (by
      simp only [List.isEmpty_iff]
      exact List.ne_nil_of_mem hmem)]
    exact onSseEvent_mem_aux sseClients d _ sid cs c [] hmem hlook hc

def c7src : DataSourceConfig :=
  { key := "events", url := "http://upstream/events", sourceType := "sse", refresh := none,
    page := ['*'], auth := false, timeout := none, retries := 0, buffer := 20,
    target := some "feed" }

theorem c7_delta_plane_witness :
    (sseDispatch true c7src [] (.num 5)).2.2 = some ⟨"events", .num 5, 20, "feed"⟩ ∧
    (7, deltaMsg ⟨"events", .num 5, 20, "feed"⟩) ∈
      onSseEvent [("s1", ['/'])] [("s1", [7])] ⟨"events", .num 5, 20, "feed"⟩ := by
  have h := c7_delta_plane c7src [] (.num 5)
  exact ⟨h.2.1 "feed" rfl (by decide),
         h.2.2.2 ⟨"events", .num 5, 20, "feed"⟩ [("s1", ['/'])] [("s1", [7])]
           "s1" [7] 7 (by decide) rfl (by decide)⟩

/-! ## Session-id selection (magnetic-v8-server platform.rs / main.rs) -/

/-- `str::split(';')`. -/
def splitOnChar (sep : Char) (l : List Char) : List (List Char) :=
  l.foldr
    (fun c acc =>
      match acc with
      | [] => [[c]]
      | cur :: rest => if c == sep then [] :: cur :: rest else (c :: cur) :: rest)
    [[]]

/-- `extract_session_cookie` (main.rs): scan the `Cookie` header for a
`magnetic_sid=` pair with a non-empty trimmed value. -/
def extract_session_cookie (headers : List (String × String)) : Option String :=
  match List.lookup "cookie" headers with
  | none => none
  | some cookie =>
    (splitOnChar ';' cookie.data).findSome? (fun part =>
      let part := trimChars part
      if "magnetic_sid=".data.isPrefixOf part then
        let val := trimChars (part.drop "magnetic_sid=".data.length)
        if val ≠ [] then some (String.mk val) else none
      else none)

/-- `handle_app_action` (platform.rs 1090-1092): cookieless action
requests fall back to the fixed session id `__default`. -/
def action_session_id (headers : List (String × String)) : String :=
  (extract_session_cookie headers).getD "__default"

/-- `handle_app_sse` (platform.rs 1003-1005): cookieless SSE connects
mint a fresh id (`generate_session_id`, passed in as `generated` since
it draws on the clock). -/
def sse_session_id (headers : List (String × String)) (generated : String) : String :=
  (extract_session_cookie headers).getD generated

/-- The page-GET SSR path (platform.rs 1363-1366): cookieless requests
mint a fresh id and flag it as new (the flag drives `Set-Cookie`). -/
def page_session_id (headers : List (String × String)) (generated : String) :
    String × Bool :=
  match extract_session_cookie headers with
  | some sid => (sid, false)
  | none => (generated, true)

/-- C9: a cookieless action request runs under the fixed session id
`__default` — every cookieless action client shares it — while a
cookieless SSE connect or page GET uses the freshly minted id instead. -/
theorem c9_default_session (headers headers2 : List (String × String))
    (generated : String)
    (h : extract_session_cookie headers = none)
    (h2 : extract_session_cookie headers2 = none) :
    action_session_id headers = "__default" ∧
    action_session_id headers = action_session_id headers2 ∧
    sse_session_id headers generated = generated ∧
    page_session_id headers generated = (generated, true) := by
  unfold action_session_id sse_session_id page_session_id
  rw [h, h2]
  exact ⟨rfl, rfl, rfl, rfl⟩

theorem c9_default_session_witness :
    action_session_id [] = "__default" ∧
    action_session_id [] = action_session_id [("accept", "text/html")] ∧
    sse_session_id [] "f00f" = "f00f" ∧
    page_session_id [] "f00f" = ("f00f", true) :=
  c9_default_session [] [("accept", "text/html")] "f00f" rfl rfl

/-! ## Control plane (magnetic-control-plane/src/server.rs) -/

/-- `apps` row (db.rs). -/
structure CPApp where
  id : String
  name : Option String
  userId : String
  nodeId : String
deriving DecidableEq

/-- `users` row (db.rs). -/
structure CPUser where
  id : String
  email : String
  tier : String
deriving DecidableEq

/-- `TierLimits` (auth.rs). -/
structure TierLimits where
  maxApps : Int
  maxSseClients : Int
  maxRequestsMonth : Int
deriving DecidableEq

/-- `tier_limits` (auth.rs): pro 20, scale 1000, default (free) 100. -/
def tier_limits (tier : String) : TierLimits :=
  if tier == "pro" then ⟨20, 50, 100000⟩
  else if tier == "scale" then ⟨1000, 500, 1000000⟩
  else ⟨100, 50, 100000⟩

/-- Outcome of the deploy handler, up to the parts that talk to the
outside world. -/
inductive DeployOutcome where
  | badRequest (msg : String)
  | forbidden (msg : String)
  | internalErr (msg : String)
  | upstreamErr (msg : String)
  | ok (status : Nat) (appId : String) (created : Bool)
deriving DecidableEq

/-- `get_app_by_name` via the request's optional name. -/
def existing_app (apps : List CPApp) (name : Option String) : Option CPApp :=
  match name with
  | some n => apps.find? (fun a => a.name == some n)
  | none => none

/-- `is_redeploy`: the named app exists and belongs to the caller. -/
def isRedeployF (apps : List CPApp) (user : CPUser) (name : Option String) : Bool :=
  ((existing_app apps name).map (fun a => a.userId == user.id)).getD false

/-- The tail of `deploy`: select a node (auto-provisioning is treated as
not configured when no node is available) and forward the bundle; the
node's answer is the external input `nodeDeployOk`. On success the
handler returns 201 for a first deploy and 200 for a redeploy. -/
def deployToNode (appId : String) (created : Bool) (selectedNode : Option String)
    (nodeDeployOk : Bool) : DeployOutcome :=
  match selectedNode with
  | none => .internalErr "no available nodes and Civo not configured"
  | some _ =>
    if nodeDeployOk then .ok (if created then 201 else 200) appId created
    else .upstreamErr "node deploy failed"

/-- `deploy` (server.rs 240-419): bundle guards, tier cap (skipped for a
redeploy of an owned app), name-collision check, then node deploy.
`count_apps_for_user` is the count of the caller's `apps` rows. -/
def deploy (apps : List CPApp) (user : CPUser) (bundleLen : Nat) (name : Option String)
    (selectedNode : Option String) (nodeDeployOk : Bool) (freshId : String) :
    DeployOutcome :=
  if bundleLen = 0 then .badRequest "bundle is required"
  else if 5 * 1024 * 1024 < bundleLen then .badRequest "bundle exceeds 5MB limit"
  else if isRedeployF apps user name = false ∧
      (tier_limits user.tier).maxApps ≤
        ((apps.filter (fun a => a.userId == user.id)).length : Int) then
    .forbidden "tier app limit reached"
  else
    match existing_app apps name with
    | some ex =>
      if ex.userId ≠ user.id then .forbidden "app name taken"
      else deployToNode ex.id false selectedNode nodeDeployOk
    | none => deployToNode freshId true selectedNode nodeDeployOk

/-- C8: with a valid bundle and the caller at (or above) their tier's
`max_apps`: a request that is not a redeploy of an owned app is
Forbidden; a redeploy of an owned app (matched by name) passes the cap
check and, when a node is available and accepts, succeeds with 200. -/
theorem c8_deploy_cap (apps : List CPApp) (user : CPUser) (bundleLen : Nat)
    (name : Option String) (node : Option String) (nodeOk : Bool) (freshId : String)
    (hb1 : 0 < bundleLen) (hb2 : bundleLen ≤ 5 * 1024 * 1024)
    (hcap : (tier_limits user.tier).maxApps ≤
      ((apps.filter (fun a => a.userId == user.id)).length : Int)) :
    ((∀ ex, existing_app apps name = some ex → ex.userId ≠ user.id) →
      deploy apps user bundleLen name node nodeOk freshId =
        .forbidden "tier app limit reached") ∧
    (∀ ex, existing_app apps name = some ex → ex.userId = user.id →
      deploy apps user bundleLen name node nodeOk freshId =
        deployToNode ex.id false node nodeOk ∧
      (∀ nid, node = some nid → nodeOk = true →
        deploy apps user bundleLen name node nodeOk freshId = .ok 200 ex.id false)) := by
  have hg1 : ¬(bundleLen = 0) := by omega
  have hg2 : ¬(5 * 1024 * 1024 < bundleLen) := by omega
  constructor
  · intro hnr
    have hred : isRedeployF apps user name = false := by
      unfold isRedeployF
      cases hex : existing_app apps name with
      | none => rfl
      | some ex => exact beq_eq_false_iff_ne.mpr (hnr ex hex)
    unfold deploy
    rw [if_neg hg1, if_neg hg2, if_pos ⟨hred, hcap⟩]
  · intro ex hex hown
    have hred : isRedeployF apps user name = true := by
      unfold isRedeployF
      rw [hex]
      exact beq_iff_eq.mpr hown
    have hmain : deploy apps user bundleLen name node nodeOk freshId =
        deployToNode ex.id false node nodeOk := by
      unfold deploy
      rw [if_neg hg1, if_neg hg2, if_neg (by rw [hred]; rintro ⟨h, _⟩; cases h), hex]
      exact if_neg (fun h => h hown)
    refine ⟨hmain, ?_⟩
    intro nid hnode hok
    rw [hmain, hnode, hok]
    rfl

def c8user : CPUser := ⟨"u1", "u@example", "pro"⟩

def c8app : CPApp := ⟨"a1", some "blog", "u1", "n1"⟩

def c8apps : List CPApp := List.replicate 20 c8app

theorem c8_deploy_cap_witness :
    deploy c8apps c8user 10 none (some "n1") true "fresh" =
      .forbidden "tier app limit reached" ∧
    deploy c8apps c8user 10 (some "blog") (some "n1") true "fresh" =
      .ok 200 "a1" false := by
  have h1 := c8_deploy_cap c8apps c8user 10 none (some "n1") true "fresh"
    (by decide) (by decide) (by decide)
  have h2 := c8_deploy_cap c8apps c8user 10 (some "blog") (some "n1") true "fresh"
    (by decide) (by decide) (by decide)
  refine ⟨h1.1 ?_, ?_⟩
  · intro ex hex
    simp [existing_app] at hex
  · exact ((h2.2 c8app (by decide) rfl).2 "n1" rfl rfl)

/-! ### C10 -/

/-- The durable state `register` touches: `users` and `api_keys(key_hash,
user_id, name)`. -/
structure RegDb where
  users : List CPUser
  keys : List (String × String × String)
deriving DecidableEq

inductive RegisterResult where
  | badRequest (msg : String)
  | ok (status : Nat) (userId : String) (email : String) (apiKey : String) (db : RegDb)
deriving DecidableEq

/-- `req.email.trim().to_lowercase()` (ASCII lowercasing). -/
def normalizeEmail (email : String) : String :=
  String.mk ((trimChars email.data).map Char.toLower)

/-- `register` (server.rs 165-213): validate the normalized email; an
email belonging to an existing user mints a fresh key for that user and
answers 200 with their id; an unseen email creates the user and answers
201. The random key and id generation and the SHA-256 digest are
external inputs (`freshId`, `freshKey`, `hashKey`). -/
def register (db : RegDb) (reqEmail : String) (freshId freshKey : String)
    (hashKey : String → String) : RegisterResult :=
  if (normalizeEmail reqEmail).data.isEmpty ||
      !((normalizeEmail reqEmail).data.contains '@') then
    .badRequest "invalid email"
  else
    match db.users.find? (fun u => u.email == normalizeEmail reqEmail) with
    | some existing =>
      .ok 200 existing.id existing.email freshKey
        { db with keys := db.keys ++ [(hashKey freshKey, existing.id, "default")] }
    | none =>
      .ok 201 freshId (normalizeEmail reqEmail) freshKey
        { users := db.users ++ [⟨freshId, normalizeEmail reqEmail, "free"⟩],
          keys := db.keys ++ [(hashKey freshKey, freshId, "default")] }

/-- C10: in a database whose stored emails are well-formed, registering
an email that (trimmed, lowercased) already belongs to a user does not
fail — it stores a fresh key for that user and returns 200 OK with the
existing user's id — while a previously unseen (valid) email creates a
new user and returns 201 Created. -/
theorem c10_register (db : RegDb) (reqEmail freshId freshKey : String)
    (hashKey : String → String)
    (hwf : ∀ u ∈ db.users,
      u.email.data.isEmpty = false ∧ u.email.data.contains '@' = true) :
    (∀ u, db.users.find? (fun x => x.email == normalizeEmail reqEmail) = some u →
      register db reqEmail freshId freshKey hashKey =
        .ok 200 u.id u.email freshKey
          { db with keys := db.keys ++ [(hashKey freshKey, u.id, "default")] }) ∧
    (db.users.find? (fun x => x.email == normalizeEmail reqEmail) = none →
      (normalizeEmail reqEmail).data.isEmpty = false →
      (normalizeEmail reqEmail).data.contains '@' = true →
      register db reqEmail freshId freshKey hashKey =
        .ok 201 freshId (normalizeEmail reqEmail) freshKey
          { users := db.users ++ [⟨freshId, normalizeEmail reqEmail, "free"⟩],
            keys := db.keys ++ [(hashKey freshKey, freshId, "default")] }) := by
  constructor
  · intro u hfind
    have hmem : u ∈ db.users := List.mem_of_find?_eq_some hfind
    have hpred := List.find?_some hfind
    have hemail : u.email = normalizeEmail reqEmail := by simpa using hpred
    obtain ⟨hempty, hcont⟩ := hwf u hmem
    rw [hemail] at hempty hcont
    unfold register
    rw [if_neg (by rw [hempty, hcont]; decide), hfind]
  · intro hfind hempty hcont
    unfold register
    rw [if_neg (by rw [hempty, hcont]; decide), hfind]

def c10db : RegDb := ⟨[⟨"u1", "a@b", "free"⟩], []⟩

theorem c10_register_witness :
    register c10db " A@B " "u2" "mk_k" (fun s => s) =
      .ok 200 "u1" "a@b" "mk_k" ⟨[⟨"u1", "a@b", "free"⟩], [("mk_k", "u1", "default")]⟩ ∧
    register c10db "new@x" "u2" "mk_k2" (fun s => s) =
      .ok 201 "u2" "new@x" "mk_k2"
        ⟨[⟨"u1", "a@b", "free"⟩, ⟨"u2", "new@x", "free"⟩],
         [("mk_k2", "u2", "default")]⟩ := by
  have h := c10_register c10db " A@B " "u2" "mk_k" (fun s => s) (by decide)
  have h2 := c10_register c10db "new@x" "u2" "mk_k2" (fun s => s) (by decide)
  constructor
  · exact h.1 ⟨"u1", "a@b", "free"⟩ (by decide)
  · exact h2.2 (by decide) (by decide) (by decide)

end Magnetic
